import Mathlib

/-!
Shallow embedding of the StyleSeeker import worker's enrichment pipeline
(`src/app/lib/embedding/embed_products.ts`, class `ProductEmbeddingService`).

External collaborators become explicit parameters:
* the relational mirror (`db.query.vectors` / `db.insert(vectors)`) is a
  `List MirrorRow` threaded through the pipeline;
* the AI description provider (`visionService.describeImages`) is a function
  `Provider`; `Except.error` models a thrown promise rejection, `Except.ok none`
  models a `null`/`undefined` return, `Except.ok (some s)` a returned string;
* the vector index (Pinecone `upsertRecords`) is modelled by a failure oracle
  `Nat → Bool` over sub-batch indices; the records handed to each call are
  recorded in a trace so that persistence behaviour is observable.

JS semantics notes:
* `charCodeAt` is modelled by `Char.toNat`, exact for code points below 0x10000
  (all inputs exercised here are ASCII);
* 32-bit coercion `sum & sum` / `<< 5` is modelled by explicit wrapping into
  `[-2^31, 2^31)` on `Int`;
* string truthiness (`!s`, `filter(Boolean)`) is `s ≠ ""` on present strings.
-/

namespace StyleSeeker

/-- Wrap an integer into signed 32-bit range, as JS `| 0` / `&` coercion does. -/
def toInt32 (n : Int) : Int :=
  ((n + 2 ^ 31) % 2 ^ 32 + 2 ^ 32) % 2 ^ 32 - 2 ^ 31

/-- One step of the checksum loop: `sum = (sum << 5) - sum + charCode; sum = sum & sum`.
`<< 5` wraps to 32 bits first; the subtraction and addition are exact in JS doubles
at these magnitudes; the final `& sum` wraps to 32 bits again. -/
def checksumStep (sum : Int) (c : Nat) : Int :=
  toInt32 (toInt32 (sum * 32) - sum + c)

/-- Base-36 digit as produced by JS `Number.prototype.toString(36)`: 0-9 then a-z. -/
def base36Digit (n : Nat) : Char :=
  if n < 10 then Char.ofNat (48 + n) else Char.ofNat (87 + n)

/-- Fuel-indexed base-36 digit expansion (structural recursion so the kernel can
evaluate it; fuel `n + 1` always suffices since the argument shrinks by ≥ 36). -/
def natToBase36Aux : Nat → Nat → List Char
  | 0, _ => []
  | fuel + 1, n =>
    if n < 36 then [base36Digit n]
    else natToBase36Aux fuel (n / 36) ++ [base36Digit (n % 36)]

/-- JS `Math.abs(sum).toString(36)`. -/
def natToBase36 (n : Nat) : String :=
  String.mk (natToBase36Aux (n + 1) n)

/-- `generateChecksum` (embed_products.ts:11-19): fold the 32-bit hash over the
code units, then render `Math.abs` of the result in base 36. -/
def generateChecksum (input : String) : String :=
  natToBase36 (input.data.foldl (fun s c => checksumStep s c.toNat) 0).natAbs

/-- Raw catalog product (`Product` in conversion/plugin_class): `description` and
`images` are optional in TS; an absent image list behaves exactly like `[]`
everywhere in the service, so it is a plain list here. -/
structure Product where
  product_id : Int
  name : String
  description : Option String
  images : List String
  isPublished : Bool
deriving DecidableEq

/-- `StoreInfo` (embed_products.ts:21-31), the search record produced by enrichment. -/
structure StoreInfo where
  product_id : String
  product_name : String
  product_description : String
  text : String
  text_checksum : String
  image_description : Option String
  first_image_url : Option String
  image_url_checksum : Option String
  isPublished : Bool
deriving DecidableEq

/-- One row of the relational mirror (`search_ai_vector`): the columns the
service reads and writes. `imageDescription` is nullable. -/
structure MirrorRow where
  appId : Int
  productId : String
  productName : String
  fullText : String
  imageUrls : String
  imageDescription : Option String
  isPublished : Bool
deriving DecidableEq

/-- The AI description provider (`visionService.describeImages`):
`error` = thrown rejection, `ok none` = null/undefined, `ok (some s)` = string. -/
def Provider : Type :=
  List String → String → Except Unit (Option String)

/-- JS truthiness of a `string | undefined` value. -/
def jsTruthy : Option String → Bool
  | none => false
  | some s => s != ""

/-- The recurring guarded-checksum idiom
`firstImageUrl ? generateChecksum(firstImageUrl) : undefined`
(embed_products.ts:92-94, 385-387, 427-429, 540-542): a checksum exists only
for a present AND non-empty (truthy) first-image URL; an empty-string URL is
treated like no URL at all. -/
def checksumIfTruthy : Option String → Option String
  | some u => if u != "" then some (generateChecksum u) else none
  | none => none

/-- Whitespace class of the JS `\s` regex and `String.prototype.trim`,
restricted to the ASCII range exercised here. -/
def isJsSpace (c : Char) : Bool :=
  c == ' ' || c == '\t' || c == '\n' || c == '\r' || c == '\x0b' || c == '\x0c'

/-- `.replace(/\r\n/g, "\n")`. -/
def replaceCRLF : List Char → List Char
  | '\r' :: '\n' :: rest => '\n' :: replaceCRLF rest
  | c :: rest => c :: replaceCRLF rest
  | [] => []

/-- `.replace(/\r/g, "\n")`. -/
def replaceCR (l : List Char) : List Char :=
  l.map fun c => if c == '\r' then '\n' else c

/-- `.replace(/\s+/g, " ")`: a run of whitespace becomes a single space.
`prevSpace` records whether the previous character belonged to a run. -/
def collapseWsAux : Bool → List Char → List Char
  | _, [] => []
  | prevSpace, c :: rest =>
    if isJsSpace c then
      (if prevSpace then [] else [' ']) ++ collapseWsAux true rest
    else
      c :: collapseWsAux false rest

def collapseWs (l : List Char) : List Char :=
  collapseWsAux false l

/-- JS `trim()`: strip leading and trailing whitespace. -/
def trimJs (l : List Char) : List Char :=
  ((l.dropWhile isJsSpace).reverse.dropWhile isJsSpace).reverse

/-- `.replace(/([.!?]) /g, "$1\n")`: a space directly after `.`, `!` or `?`
becomes a newline; the regex consumes both characters of a match. -/
def splitPunct : List Char → List Char
  | [] => []
  | [c] => [c]
  | c :: d :: rest =>
    if (c == '.' || c == '!' || c == '?') && d == ' '
    then c :: '\n' :: splitPunct rest
    else c :: splitPunct (d :: rest)

/-- JS `\w` class: `[A-Za-z0-9_]`. -/
def isWordChar (c : Char) : Bool :=
  c.isAlphanum || c == '_'

/-- `.replace(/(\w+)([,;]) /g, "$1$2\n")`: a space is rewritten to a newline
exactly when it follows `,` or `;` which itself follows a word character
(the `\w+` group only constrains the single character before the separator;
consumed text cannot re-enter a later match because neither a space nor an
inserted newline is a word character). -/
def splitClauseAux : Option Char → Option Char → List Char → List Char
  | _, _, [] => []
  | p2, p1, c :: rest =>
    let c' :=
      if c == ' ' && (p1 == some ',' || p1 == some ';')
          && (match p2 with | some w => isWordChar w | none => false)
      then '\n' else c
    c' :: splitClauseAux p1 (some c') rest

def splitClause (l : List Char) : List Char :=
  splitClauseAux none none l

/-- The normalization chain applied to a truthy provider answer
(embed_products.ts:131-144). -/
def normalizeDescription (s : String) : String :=
  let step1 := collapseWs (replaceCR (replaceCRLF s.data))
  let step2 := trimJs step1
  let step3 := splitClause (splitPunct step2)
  let lines := ((step3.splitOn '\n').map trimJs).filter fun l => !l.isEmpty
  String.intercalate "\n" (lines.map String.mk)

/-- `[baseText, imageDescription].filter(Boolean).join("\n")`. -/
def finalTextOf (baseText : String) (d : Option String) : String :=
  String.intercalate "\n" ((([some baseText, d]).filterMap id).filter fun s => s != "")

/-- `db.query.vectors.findFirst` by `(appId, imageUrls = checksum)`
(embed_products.ts:99-104); the deterministic model returns the first row in
list order. -/
def mirrorFindFirst (mirror : List MirrorRow) (appId : Int) (checksum : String) :
    Option MirrorRow :=
  mirror.find? fun r => r.appId == appId && r.imageUrls == checksum

/-- Result of `processProduct` plus an observation of whether
`visionService.describeImages` was invoked in that run. -/
structure EnrichResult where
  record : Option StoreInfo
  providerCalled : Bool
deriving DecidableEq

/-- `processProduct` (embed_products.ts:81-174). The declared TS return type is
`StoreInfo | null`, but every path ends at the single `return {...}`, so the
result is always `some`; the provider is called exactly when the product has
images and the per-product mirror lookup yields no truthy description; a
provider throw is caught in place and leaves the description untouched. The
URL checksum exists only for a truthy (non-empty) first-image URL, and the
mirror lookup runs only under `if (imageUrlChecksum)`. -/
def processProduct (p : Product) (appId : Int) (mirror : List MirrorRow)
    (provider : Provider) : EnrichResult :=
  let firstImageUrl := p.images.head?
  let baseText := p.name ++ " " ++ p.description.getD ""
  let imageUrlChecksum := checksumIfTruthy firstImageUrl
  -- `existingVector.imageDescription ?? undefined` (a null column stays absent)
  let existingImageDescription : Option String :=
    match imageUrlChecksum with
    | some cs =>
      match mirrorFindFirst mirror appId cs with
      | some row => row.imageDescription
      | none => none
    | none => none
  -- `product.images && product.images.length > 0 && !existingImageDescription`
  let callsProvider := !p.images.isEmpty && !jsTruthy existingImageDescription
  let imageDescription : Option String :=
    if callsProvider then
      match provider p.images p.name with
      | .error _ => existingImageDescription
      | .ok res => if jsTruthy res then res.map normalizeDescription else res
    else existingImageDescription
  let finalText := finalTextOf baseText imageDescription
  { record := some
      { product_id := toString p.product_id
        product_name := p.name
        product_description := p.description.getD ""
        text := finalText
        text_checksum := generateChecksum finalText
        image_description := imageDescription
        first_image_url := firstImageUrl
        image_url_checksum := imageUrlChecksum
        isPublished := p.isPublished }
    providerCalled := callsProvider }

/-- `processProductWithCache` (embed_products.ts:529-560). Makes no mirror query
and no provider call; checksum and cache read happen only inside
`if (firstImageUrl)` (line 540), so a missing or empty-string first image
leaves both the checksum and the description absent. `appId` is a parameter of
the TS method but is unused in its body. -/
def processProductWithCache (p : Product) (appId : Int)
    (cache : List (String × String)) : Option StoreInfo :=
  let firstImageUrl := p.images.head?
  let baseText := p.name ++ " " ++ p.description.getD ""
  let imageUrlChecksum := checksumIfTruthy firstImageUrl
  let imageDescription := imageUrlChecksum.bind fun cs => cache.lookup cs
  let finalText := finalTextOf baseText imageDescription
  some
    { product_id := toString p.product_id
      product_name := p.name
      product_description := p.description.getD ""
      text := finalText
      text_checksum := generateChecksum finalText
      image_description := imageDescription
      first_image_url := firstImageUrl
      image_url_checksum := imageUrlChecksum
      isPublished := p.isPublished }

/-- The prefetched `existingDescriptions` map (embed_products.ts:389-411): query
the mirror for rows of this tenant whose `imageUrls` checksum is in the batch's
checksum list, keep rows with truthy `imageUrls` and truthy `imageDescription`.
A JS `Map` is an association list where the most recent `set` wins, so later
rows are consed to the front and `lookup` takes the first hit. -/
def buildPrefetch (appId : Int) (mirror : List MirrorRow) (checksums : List String) :
    List (String × String) :=
  (mirror.filter fun r => r.appId == appId && checksums.contains r.imageUrls).foldl
    (fun m r =>
      match r.imageDescription with
      | some d => if r.imageUrls != "" && d != "" then (r.imageUrls, d) :: m else m
      | none => m)
    []

/-- The fast-path/slow-path split condition (embed_products.ts:426-439): a
product goes to the cached group when its first image is absent or falsy
(`if (firstImageUrl)` fails for the empty string too) or its first-image
checksum has a prefetched description; the slow path is the exact complement. -/
def isCachedHit (cache : List (String × String)) (p : Product) : Bool :=
  match checksumIfTruthy p.images.head? with
  | some cs => ((cache.lookup cs).isSome : Bool)
  | none => true

/-- `processProductsBatchParallel` (embed_products.ts:379-524). Returns the
collected records and the number of provider invocations. The cached group is
processed first, in product order, then the slow group in order (`Promise.all`
preserves index order and groups are concatenated in order, so the grouping by
10 concurrent calls does not change the value); per-product throws cannot occur
in this effect-free model of the mirror, so each `try`/`catch` collapses to its
body. -/
def processProductsBatchParallel (products : List Product) (appId : Int)
    (mirror : List MirrorRow) (provider : Provider) : List StoreInfo × Nat :=
  -- `p.images?.[0] ? generateChecksum(p.images[0]) : null` then `.filter(Boolean)`
  let imageChecksums := products.filterMap fun p => checksumIfTruthy p.images.head?
  let existingDescriptions := buildPrefetch appId mirror imageChecksums
  let productsWithCachedImages := products.filter (isCachedHit existingDescriptions)
  let productsNeedingImageProcessing :=
    products.filter fun p => !isCachedHit existingDescriptions p
  let cachedResults := productsWithCachedImages.filterMap
    fun p => processProductWithCache p appId existingDescriptions
  let needingResults := productsNeedingImageProcessing.map
    fun p => processProduct p appId mirror provider
  (cachedResults ++ needingResults.filterMap (·.record),
   (needingResults.filter (·.providerCalled)).length)

/-- A record as sent to the vector index (embed_products.ts:190-199). -/
structure PineRecord where
  id : String
  text : String
  description : String
  firstImageUrl : String
  productName : String
  productDescription : String
  productId : String
  isPublished : Bool
deriving DecidableEq

def toPineRecord (p : StoreInfo) : PineRecord :=
  { id := p.product_id
    text := p.text
    description := p.image_description.getD ""
    firstImageUrl := p.first_image_url.getD ""
    productName := p.product_name
    productDescription := p.product_description
    productId := p.product_id
    isPublished := p.isPublished }

/-- The row upserted into the relational mirror for one record
(embed_products.ts:248-270): note `fullText` stores the TEXT CHECKSUM and
`imageUrls` the URL checksum (or `""`). -/
def toMirrorRow (appId : Int) (p : StoreInfo) : MirrorRow :=
  { appId := appId
    productId := p.product_id
    productName := p.product_name
    fullText := p.text_checksum
    imageUrls := p.image_url_checksum.getD ""
    imageDescription := p.image_description
    isPublished := p.isPublished }

/-- The JS slicing loop `for (i = 0; i < l.length; i += n) slice(i, i + n)`,
with fuel = list length so the kernel can evaluate it (each step consumes at
least one element, so the `fuel = 0` branch is unreachable for `n ≥ 1`). -/
def chunksOfFuel (n : Nat) : Nat → List α → List (List α)
  | _, [] => []
  | 0, l => [l]
  | fuel + 1, x :: xs => (x :: xs.take (n - 1)) :: chunksOfFuel n fuel (xs.drop (n - 1))

def chunksOf (n : Nat) (l : List α) : List (List α) :=
  chunksOfFuel n l.length l

/-- What one `batchInsertProducts` call did: the chunk it was given, the
vector-index sub-batches successfully upserted before any failure, the mirror
rows upserted, and whether the call returned normally (`ok = false` models the
rethrown sub-batch error). -/
structure WriteTrace where
  records : List StoreInfo
  pineBatches : List (List PineRecord)
  mirrorUpserts : List MirrorRow
  ok : Bool
deriving DecidableEq

/-- The sequential Pinecone upsert loop (embed_products.ts:206-240): sub-batch
`i` either succeeds and is appended to the trace, or fails and the error
propagates at once (nothing later runs). `pineFails i` is the external
index's behaviour on the `i`-th call. -/
def upsertBatchesLoop (pineFails : Nat → Bool) :
    Nat → List (List PineRecord) → List (List PineRecord) × Bool
  | _, [] => ([], true)
  | i, b :: rest =>
    if pineFails i then ([], false)
    else
      let s := upsertBatchesLoop pineFails (i + 1) rest
      (b :: s.1, s.2)

/-- `batchInsertProducts` (embed_products.ts:176-277): map to Pinecone records,
upsert in sub-batches of 50; only if every sub-batch succeeded, upsert each
record into the mirror (the early `return` on an empty input is observationally
the same as running the loops on nothing). -/
def batchInsertProducts (products : List StoreInfo) (appId : Int)
    (pineFails : Nat → Bool) : WriteTrace :=
  let pineconeRecords := products.map toPineRecord
  let s := upsertBatchesLoop pineFails 0 (chunksOf 50 pineconeRecords)
  { records := products
    pineBatches := s.1
    mirrorUpserts := if s.2 then products.map (toMirrorRow appId) else []
    ok := s.2 }

/-- Effect of one `onConflictDoUpdate` upsert keyed on `(appId, productId)`:
replace the matching row, or append a new one. -/
def applyUpsert (m : List MirrorRow) (u : MirrorRow) : List MirrorRow :=
  if m.any fun r => r.appId == u.appId && r.productId == u.productId then
    m.map fun r =>
      if r.appId == u.appId && r.productId == u.productId then u else r
  else m ++ [u]

/-- `ProcessingResult` (embed_products.ts:33-37). -/
structure ProcessingResult where
  message : String
  imported_count : Nat
  status : Nat
deriving DecidableEq

/-- Accumulated observable state of the chunk loop. -/
structure RunState where
  imported : Nat
  writes : List WriteTrace
  mirror : List MirrorRow
  providerCalls : Nat
deriving DecidableEq

/-- The chunk loop of `processAndStoreProducts` (embed_products.ts:298-356):
process chunk `k` against the current mirror, persist when at least one record
was produced, count the chunk's records only when persistence succeeded
(a persistence failure is logged and the loop continues), and thread the mirror
rows written by a successful chunk into later chunks' cache prefetch.
`pineFails k i` is the vector index's behaviour on sub-batch `i` of chunk `k`. -/
def runChunks (appId : Int) (provider : Provider) (pineFails : Nat → Nat → Bool) :
    Nat → List MirrorRow → List (List Product) → RunState
  | _, mirror, [] => ⟨0, [], mirror, 0⟩
  | k, mirror, chunk :: rest =>
    let pr := processProductsBatchParallel chunk appId mirror provider
    if pr.1.isEmpty then
      let s := runChunks appId provider pineFails (k + 1) mirror rest
      ⟨s.imported, s.writes, s.mirror, pr.2 + s.providerCalls⟩
    else
      let tr := batchInsertProducts pr.1 appId (pineFails k)
      let mirror2 := tr.mirrorUpserts.foldl applyUpsert mirror
      let s := runChunks appId provider pineFails (k + 1) mirror2 rest
      ⟨(if tr.ok then pr.1.length else 0) + s.imported,
       tr :: s.writes, s.mirror, pr.2 + s.providerCalls⟩

/-- Everything observable about one `processAndStoreProducts` run. -/
structure JobOutcome where
  result : ProcessingResult
  writes : List WriteTrace
  finalMirror : List MirrorRow
  providerCalls : Nat
deriving DecidableEq

/-- `processAndStoreProducts` (embed_products.ts:279-374). The catalog fetch is
a collaborator; its outcome is the `fetched` argument. A fetch failure is
caught, logged and RETHROWN (line 372), modelled as `Except.error`. On success
the catalog is cut into chunks of 100 and run through the chunk loop; the
result's status is 200 exactly when at least one product was imported. -/
def processAndStoreProducts (fetched : Except Unit (List Product)) (appId : Int)
    (mirror0 : List MirrorRow) (provider : Provider)
    (pineFails : Nat → Nat → Bool) : Except Unit JobOutcome :=
  match fetched with
  | .error e => .error e
  | .ok products =>
    let s := runChunks appId provider pineFails 0 mirror0 (chunksOf 100 products)
    .ok
      { result :=
          { message :=
              if s.imported = products.length then
                "All products processed and stored successfully"
              else
                "Processed " ++ toString s.imported ++ " out of " ++
                  toString products.length ++ " products"
            imported_count := s.imported
            status := if s.imported > 0 then 200 else 500 }
        writes := s.writes
        finalMirror := s.mirror
        providerCalls := s.providerCalls }

/-- `upsertSingleProduct` (embed_products.ts:562-586): enrich one product; on a
`null` record report a 500 result; otherwise persist it as a one-record chunk,
rethrowing a persistence failure. -/
def upsertSingleProduct (p : Product) (appId : Int) (mirror : List MirrorRow)
    (provider : Provider) (pineFails : Nat → Bool) : Except Unit ProcessingResult :=
  match (processProduct p appId mirror provider).record with
  | some processed =>
    let tr := batchInsertProducts [processed] appId pineFails
    if tr.ok then
      .ok
        { message := "Product processed and stored successfully"
          imported_count := 1
          status := 200 }
    else .error ()
  | none =>
    .ok
      { message := "Failed to process product"
        imported_count := 0
        status := 500 }

/-- The structural-validity notion of this repository: the Shopcada catalog
plugin rejects (by throwing) any raw product with a falsy `product_id` or a
falsy `name` (shopcada plugin `processProduct`: `if (!productObj.product_id ||
!productObj.name) throw ...`); on the typed `Product` the falsy values are
`0` and `""`. -/
def structurallyValid (p : Product) : Bool :=
  !(p.product_id == 0) && !(p.name == "")

/-! Concrete fixtures used by witnesses and counterexamples. -/

/-- A provider that always answers `null` (`ok none`). -/
def provNone : Provider := fun _ _ => .ok none

/-- A provider answering a fixed description. -/
def provBag : Provider := fun _ _ => .ok (some "A nice bag")

/-- A provider that throws exactly on the image list `["u2"]`. -/
def provThrow2 : Provider := fun imgs _ =>
  if imgs == ["u2"] then .error () else .ok (some "desc")

def prodNoName : Product :=
  { product_id := 0, name := "", description := none, images := [], isPublished := false }

def prodImg : Product :=
  { product_id := 5, name := "n", description := some "d", images := ["img"],
    isPublished := false }

def prodU1 : Product :=
  { product_id := 1, name := "one", description := none, images := ["u1"], isPublished := true }

def prodU2 : Product :=
  { product_id := 2, name := "two", description := none, images := ["u2"], isPublished := true }

def prodU3 : Product :=
  { product_id := 3, name := "three", description := none, images := ["u3"], isPublished := true }

/-- A mirror row carrying a cached description for the checksum of `"img"`. -/
def rowImg : MirrorRow :=
  { appId := 1, productId := "9", productName := "x", fullText := "t",
    imageUrls := generateChecksum "img", imageDescription := some "CACHED DESC",
    isPublished := true }

/-- A bare catalog of `n` image-less products. -/
def plainCatalog (n : Nat) : List Product :=
  (List.range n).map fun i =>
    { product_id := (i : Int), name := "p", description := none, images := [],
      isPublished := false }

/-! Helper lemmas. -/

lemma processProduct_record_isSome (p : Product) (a : Int) (m : List MirrorRow)
    (pr : Provider) : ((processProduct p a m pr).record).isSome = true := rfl

lemma processProductWithCache_isSome (p : Product) (a : Int)
    (c : List (String × String)) : (processProductWithCache p a c).isSome = true := rfl

lemma length_filterMap_of_isSome {α β : Type} (f : α → Option β) (l : List α)
    (h : ∀ x, (f x).isSome = true) : (l.filterMap f).length = l.length := by
  induction l with
  | nil => rfl
  | cons x xs ih =>
    cases hx : f x with
    | none => exact absurd (hx ▸ h x) (by simp)
    | some b => simp [List.filterMap_cons, hx, ih]

lemma length_filter_add_not {α : Type} (l : List α) (q : α → Bool) :
    (l.filter q).length + (l.filter fun x => !q x).length = l.length := by
  induction l with
  | nil => rfl
  | cons x xs ih =>
    cases hx : q x <;> simp [List.filter_cons, hx, ← ih] <;> omega

/-- The batch pipeline drops nothing: each product of the chunk yields exactly
one record (cached and slow groups partition, and both enrichers always return
a record). -/
lemma batch_length (ps : List Product) (a : Int) (m : List MirrorRow)
    (pr : Provider) : (processProductsBatchParallel ps a m pr).1.length = ps.length := by
  unfold processProductsBatchParallel
  simp only [List.length_append, List.filterMap_map, Function.comp_def]
  rw [length_filterMap_of_isSome _ _ (fun p => processProductWithCache_isSome p a _),
      length_filterMap_of_isSome _ _ (fun p => processProduct_record_isSome p a m pr)]
  exact length_filter_add_not ps _

lemma upsertBatchesLoop_noFail (pf : Nat → Bool) (h : ∀ j, pf j = false) :
    ∀ (bs : List (List PineRecord)) (i : Nat), upsertBatchesLoop pf i bs = (bs, true) := by
  intro bs
  induction bs with
  | nil => intro i; rfl
  | cons b rest ih => intro i; simp [upsertBatchesLoop, h i, ih (i + 1)]

lemma batchInsertProducts_noFail (ps : List StoreInfo) (a : Int) (pf : Nat → Bool)
    (h : ∀ j, pf j = false) :
    batchInsertProducts ps a pf =
      ⟨ps, chunksOf 50 (ps.map toPineRecord), ps.map (toMirrorRow a), true⟩ := by
  simp only [batchInsertProducts]
  rw [upsertBatchesLoop_noFail pf h]
  simp

lemma chunksOfFuel_congr {α : Type} (n : Nat) :
    ∀ (f1 f2 : Nat) (l : List α), l.length ≤ f1 → l.length ≤ f2 →
      chunksOfFuel n f1 l = chunksOfFuel n f2 l := by
  intro f1
  induction f1 with
  | zero =>
    intro f2 l h1 _
    have : l = [] := List.length_eq_zero.mp (Nat.le_zero.mp h1)
    subst this
    cases f2 <;> rfl
  | succ f ih =>
    intro f2 l h1 h2
    cases l with
    | nil => cases f2 <;> rfl
    | cons x xs =>
      cases f2 with
      | zero => simp at h2
      | succ f2 =>
        show (x :: xs.take (n - 1)) :: chunksOfFuel n f (xs.drop (n - 1)) =
          (x :: xs.take (n - 1)) :: chunksOfFuel n f2 (xs.drop (n - 1))
        have hd : (xs.drop (n - 1)).length ≤ xs.length := by
          simp [List.length_drop]
        simp only [List.length_cons, Nat.succ_le_succ_iff] at h1 h2
        rw [ih f2 _ (le_trans hd h1) (le_trans hd h2)]

lemma chunksOf_cons {α : Type} (n : Nat) (x : α) (xs : List α) :
    chunksOf n (x :: xs) = (x :: xs.take (n - 1)) :: chunksOf n (xs.drop (n - 1)) := by
  show chunksOfFuel n (xs.length + 1) (x :: xs) = _
  show (x :: xs.take (n - 1)) :: chunksOfFuel n xs.length (xs.drop (n - 1)) = _
  rw [chunksOfFuel_congr n xs.length (xs.drop (n - 1)).length (xs.drop (n - 1))
    (by simp [List.length_drop]) (le_refl _)]
  rfl

lemma chunksOf_eq_cons {α : Type} (n : Nat) (hn : 0 < n) (x : α) (xs : List α) :
    chunksOf n (x :: xs) = (x :: xs).take n :: chunksOf n ((x :: xs).drop n) := by
  obtain ⟨m, rfl⟩ : ∃ m, n = m + 1 := ⟨n - 1, by omega⟩
  rw [chunksOf_cons]
  rfl

lemma batchInsertProducts_records (ps : List StoreInfo) (a : Int) (pf : Nat → Bool) :
    (batchInsertProducts ps a pf).records = ps := rfl

/-- The job's imported count is, at every point, the sum of the record counts
of the persistence calls that succeeded. -/
lemma runChunks_imported_eq_sum (a : Int) (pr : Provider) (pf : Nat → Nat → Bool) :
    ∀ (chunks : List (List Product)) (k : Nat) (m : List MirrorRow),
      (runChunks a pr pf k m chunks).imported =
        ((runChunks a pr pf k m chunks).writes.map
          fun w => if w.ok then w.records.length else 0).sum := by
  intro chunks
  induction chunks with
  | nil => intro k m; rfl
  | cons c rest ih =>
    intro k m
    rw [runChunks]
    cases he : (processProductsBatchParallel c a m pr).1.isEmpty with
    | true => simpa [he] using ih (k + 1) m
    | false =>
      simp only [he, Bool.false_eq_true, if_false, List.map_cons, List.sum_cons,
        batchInsertProducts_records]
      rw [ih]

lemma upsertBatchesLoop_mem (pf : Nat → Bool) :
    ∀ (bs : List (List PineRecord)) (i : Nat) (b : List PineRecord),
      b ∈ (upsertBatchesLoop pf i bs).1 → b ∈ bs := by
  intro bs
  induction bs with
  | nil => intro i b h; simpa [upsertBatchesLoop] using h
  | cons c rest ih =>
    intro i b h
    by_cases hf : pf i
    · simp [upsertBatchesLoop, hf] at h
    · simp only [upsertBatchesLoop, hf, Bool.false_eq_true, if_false,
        List.mem_cons] at h
      rcases h with h | h
      · exact h ▸ List.mem_cons_self c rest
      · exact List.mem_cons_of_mem c (ih (i + 1) b h)

lemma upsertBatchesLoop_ok_iff (pf : Nat → Bool) :
    ∀ (bs : List (List PineRecord)) (i : Nat),
      (upsertBatchesLoop pf i bs).2 = false ↔ ∃ j < bs.length, pf (i + j) = true := by
  intro bs
  induction bs with
  | nil => intro i; simp [upsertBatchesLoop]
  | cons c rest ih =>
    intro i
    by_cases hf : pf i
    · constructor
      · intro _
        exact ⟨0, by simp, by simpa using hf⟩
      · intro _
        simp [upsertBatchesLoop, hf]
    · simp only [upsertBatchesLoop, hf, Bool.false_eq_true, if_false]
      rw [ih (i + 1)]
      constructor
      · rintro ⟨j, hj, hpf⟩
        exact ⟨j + 1, by simpa using hj, by rw [show i + (j + 1) = i + 1 + j by omega]; exact hpf⟩
      · rintro ⟨j, hj, hpf⟩
        cases j with
        | zero => exact absurd (by simpa using hpf) (by simpa using hf)
        | succ j =>
          exact ⟨j, by simpa using hj, by rw [show i + 1 + j = i + (j + 1) by omega]; exact hpf⟩

lemma chunksOfFuel_length_le {α : Type} (n : Nat) (hn : 0 < n) :
    ∀ (f : Nat) (l : List α), l.length ≤ f →
      ∀ c ∈ chunksOfFuel n f l, c.length ≤ n := by
  intro f
  induction f with
  | zero =>
    intro l h c hc
    have : l = [] := List.length_eq_zero.mp (Nat.le_zero.mp h)
    subst this
    simp [chunksOfFuel] at hc
  | succ f ih =>
    intro l h c hc
    cases l with
    | nil => simp [chunksOfFuel] at hc
    | cons x xs =>
      simp only [chunksOfFuel, List.mem_cons] at hc
      rcases hc with rfl | hc
      · have := List.length_take_le (n - 1) xs
        simp only [List.length_cons]
        omega
      · refine ih (xs.drop (n - 1)) ?_ c hc
        simp only [List.length_cons, Nat.succ_le_succ_iff] at h
        calc (xs.drop (n - 1)).length ≤ xs.length := by simp [List.length_drop]
          _ ≤ f := h

lemma chunksOf_length_le {α : Type} (n : Nat) (hn : 0 < n) (l : List α) :
    ∀ c ∈ chunksOf n l, c.length ≤ n :=
  chunksOfFuel_length_le n hn l.length l (le_refl _)

lemma batchInsertProducts_failFirst (ps : List StoreInfo) (a : Int) (pf : Nat → Bool)
    (h0 : pf 0 = true) (hne : ps ≠ []) :
    batchInsertProducts ps a pf = ⟨ps, [], [], false⟩ := by
  obtain ⟨x, xs, rfl⟩ := List.exists_cons_of_ne_nil hne
  simp only [batchInsertProducts, List.map_cons, chunksOf_cons,
    upsertBatchesLoop, h0, if_true]
  rfl

/-! Claim theorems. -/

/-- C2, counterexample: the claim says `processProduct` returns `null` for a
structurally invalid product (missing id or name). On the product that the
repository's own catalog plugin classifies as invalid (falsy id and name),
`processProduct` still returns a record — no code path of processProduct
(embed_products.ts:81-174) returns null. -/
theorem claim_c2_counterexample :
    structurallyValid prodNoName = false ∧
      (processProduct prodNoName 1 [] provNone).record ≠ none := by
  decide

/-- C2, amended: `processProduct` never returns `null`: for every input product,
structurally valid or not, it returns a record carrying the product's id and
name (validation of malformed raw products happens upstream in the catalog
plugin, which throws instead of producing a `Product`). -/
theorem claim_c2_enrich_total (p : Product) (a : Int) (m : List MirrorRow)
    (pr : Provider) :
    ∃ r, (processProduct p a m pr).record = some r ∧
      r.product_id = toString p.product_id ∧ r.product_name = p.name :=
  ⟨_, rfl, rfl, rfl⟩

/-- A product whose single image URL is the empty string: its first image
exists but is falsy in JS. -/
def prodEmptyImg : Product :=
  { product_id := 7, name := "e", description := none, images := [""],
    isPublished := false }

/-- C4, counterexample: the claim says `image_url_checksum` is the checksum of
`first_image_url` whenever a first image exists, absent otherwise. For a
product whose first image is the empty string, the record stores
`first_image_url = ""` (a first image exists) but `imageUrlChecksum` stays
undefined, because `firstImageUrl ? generateChecksum(firstImageUrl) :
undefined` (embed_products.ts:92-94) is falsy on `""` — the claimed value
would be `generateChecksum "" = "0"`. -/
theorem claim_c4_counterexample :
    ((processProduct prodEmptyImg 1 [] provNone).record.map fun r =>
        (r.first_image_url, r.image_url_checksum,
          r.image_url_checksum == r.first_image_url.map generateChecksum)) =
      some (some "", none, false) ∧
    generateChecksum "" = "0" := by
  decide

/-- C4, amended: every record produced by either enrichment entry point has
`text_checksum = generateChecksum text` for the exact `text` stored in the
same record, `first_image_url` equal to the product's first image, and
`image_url_checksum = generateChecksum first_image_url` when the first image
URL is present AND non-empty (truthy), absent when there is no first image or
it is the empty string. -/
theorem claim_c4_checksum_invariants (p : Product) (a : Int) (m : List MirrorRow)
    (pr : Provider) (cache : List (String × String)) :
    (∀ r, (processProduct p a m pr).record = some r →
      r.text_checksum = generateChecksum r.text ∧
        r.image_url_checksum = checksumIfTruthy r.first_image_url ∧
        r.first_image_url = p.images.head?) ∧
    (∀ r, processProductWithCache p a cache = some r →
      r.text_checksum = generateChecksum r.text ∧
        r.image_url_checksum = checksumIfTruthy r.first_image_url ∧
        r.first_image_url = p.images.head?) := by
  constructor
  · intro r h
    cases h
    exact ⟨rfl, rfl, rfl⟩
  · intro r h
    cases h
    exact ⟨rfl, rfl, rfl⟩

/-- C4, witness: the amended invariants instantiated on a concrete product
through each entry point. -/
theorem claim_c4_witness :
    (∃ r, (processProduct prodImg 1 [] provBag).record = some r ∧
      r.text_checksum = generateChecksum r.text ∧
        r.image_url_checksum = checksumIfTruthy r.first_image_url ∧
        r.first_image_url = prodImg.images.head?) ∧
    (∃ r, processProductWithCache prodImg 1 [] = some r ∧
      r.text_checksum = generateChecksum r.text ∧
        r.image_url_checksum = checksumIfTruthy r.first_image_url ∧
        r.first_image_url = prodImg.images.head?) :=
  ⟨⟨_, rfl, (claim_c4_checksum_invariants prodImg 1 [] provBag []).1 _ rfl⟩,
   ⟨_, rfl, (claim_c4_checksum_invariants prodImg 1 [] provBag []).2 _ rfl⟩⟩

/-- C7, counterexample: the claim says `processAndStoreProducts` always returns
a structured result and never lets an exception escape the orchestrator-level
entry point; but a catalog fetch failure is rethrown by the orchestrator's own
catch (embed_products.ts:370-373), so the entry point surfaces an exception. -/
theorem claim_c7_counterexample :
    processAndStoreProducts (.error ()) 1 [] provNone (fun _ _ => false) =
      .error () := rfl

/-- C7, amended: whenever the catalog fetch succeeds, `processAndStoreProducts`
returns a structured `{message, imported_count, status}` result — never an
exception — with status 200 exactly when `imported_count > 0` and 500
otherwise; a catalog fetch failure instead propagates as a thrown error. -/
theorem claim_c7_structured_result (products : List Product) (a : Int)
    (m : List MirrorRow) (pr : Provider) (pf : Nat → Nat → Bool) :
    ∃ out, processAndStoreProducts (.ok products) a m pr pf = .ok out ∧
      (out.result.status = 200 ↔ 0 < out.result.imported_count) ∧
      (out.result.status = 200 ∨ out.result.status = 500) := by
  refine ⟨_, rfl, ?_, ?_⟩ <;>
  · simp only [processAndStoreProducts]
    by_cases h : (runChunks a pr pf 0 m (chunksOf 100 products)).imported > 0 <;>
      simp [h]

/-- C10: since `processProduct` never returns `null`, the
`"Failed to process product"` branch of `upsertSingleProduct` is dead code:
whenever `upsertSingleProduct` returns without throwing it reports status 200
and `imported_count = 1`. -/
theorem claim_c10_single_upsert_status (p : Product) (a : Int)
    (m : List MirrorRow) (pr : Provider) (pf : Nat → Bool) (r : ProcessingResult)
    (h : upsertSingleProduct p a m pr pf = .ok r) :
    r.status = 200 ∧ r.imported_count = 1 := by
  obtain ⟨r0, hr0⟩ : ∃ r0, (processProduct p a m pr).record = some r0 := ⟨_, rfl⟩
  unfold upsertSingleProduct at h
  rw [hr0] at h
  by_cases hok : (batchInsertProducts [r0] a pf).ok
  · simp only [hok, if_true] at h
    cases h
    exact ⟨rfl, rfl⟩
  · simp only [hok, Bool.false_eq_true, if_false, reduceCtorEq] at h

/-- C10, witness: a concrete single-product upsert returns status 200 and
count 1. -/
theorem claim_c10_witness :
    ∃ r, upsertSingleProduct prodImg 1 [] provNone (fun _ => false) = .ok r ∧
      r.status = 200 ∧ r.imported_count = 1 :=
  ⟨_, rfl, claim_c10_single_upsert_status prodImg 1 [] provNone (fun _ => false) _ rfl⟩

/-- C1: a product whose truthy (non-empty) first-image URL's checksum has an
entry in the prefetched cache map gets exactly the cached string as its
`image_description`, and the batch pipeline performs zero AI-provider calls
for it (`processProductWithCache` contains no provider invocation at all; in
the batch such a product lands in the cached group, and only the slow group
can call the provider). A checksum is only ever computed — and the cache only
consulted — for a truthy first-image URL, hence the `u ≠ ""` hypothesis. -/
theorem claim_c1_cache_correctness (p : Product) (a : Int) (mirror : List MirrorRow)
    (provider : Provider) (u d : String)
    (h1 : p.images.head? = some u) (hu : u ≠ "")
    (h2 : (buildPrefetch a mirror [generateChecksum u]).lookup (generateChecksum u) =
      some d) :
    (∃ r, processProductWithCache p a (buildPrefetch a mirror [generateChecksum u]) =
        some r ∧ r.image_description = some d) ∧
    (processProductsBatchParallel [p] a mirror provider).2 = 0 := by
  constructor
  · exact ⟨_, rfl, by simp [checksumIfTruthy, h1, hu, h2]⟩
  · simp [processProductsBatchParallel, isCachedHit, checksumIfTruthy, h1, hu, h2]

/-- C1, witness: the cached description is returned verbatim and no provider
call happens on a concrete product whose checksum is mirrored. -/
theorem claim_c1_witness :
    (∃ r, processProductWithCache prodImg 1
        (buildPrefetch 1 [rowImg] [generateChecksum "img"]) = some r ∧
        r.image_description = some "CACHED DESC") ∧
    (processProductsBatchParallel [prodImg] 1 [rowImg] provBag).2 = 0 :=
  claim_c1_cache_correctness prodImg 1 [rowImg] provBag "img" "CACHED DESC" rfl
    (by decide) (by decide)

/-- C3, counterexample: for a cache-miss product the claim says
`processProductWithCache` invokes the provider and matches `processProduct`
given the same provider answer. On a concrete miss with a provider answering
`"A nice bag"`, `processProduct` calls the provider and embeds the description
while `processProductWithCache` produces a different record with no
description — the cached entry point contains no provider call. -/
theorem claim_c3_counterexample :
    List.lookup (generateChecksum "img") ([] : List (String × String)) = none ∧
    (processProduct prodImg 1 [] provBag).providerCalled = true ∧
    (processProduct prodImg 1 [] provBag).record ≠ processProductWithCache prodImg 1 [] := by
  decide

/-- C3, amended: on a cache miss `processProductWithCache` performs no provider
call and returns the record built by the shared combination logic with an
absent image description — exactly `processProduct`'s result when its own
lookup misses and the provider yields nothing; the provider is only invoked by
`processProduct`, which the orchestrator uses for cache-miss products and which
does call it whenever images are present. -/
theorem claim_c3_cache_miss_no_ai_call (p : Product) (a : Int)
    (cache : List (String × String)) (provider : Provider)
    (hmiss : ∀ u, p.images.head? = some u →
      cache.lookup (generateChecksum u) = none) :
    processProductWithCache p a cache =
      (processProduct p a [] (fun _ _ => .ok none)).record ∧
    (p.images ≠ [] → (processProduct p a [] provider).providerCalled = true) := by
  cases hp : p.images with
  | nil =>
    constructor
    · simp [processProductWithCache, processProduct, hp, checksumIfTruthy]
    · intro h; exact absurd rfl h
  | cons u us =>
    have hu : p.images.head? = some u := by rw [hp]; rfl
    by_cases hu0 : u = ""
    · subst hu0
      constructor
      · simp [processProductWithCache, processProduct, hp, checksumIfTruthy,
          mirrorFindFirst, jsTruthy]
      · intro _
        simp [processProduct, hp, checksumIfTruthy, mirrorFindFirst, jsTruthy]
    · constructor
      · simp [processProductWithCache, processProduct, hp, checksumIfTruthy, hu0,
          hmiss u hu, mirrorFindFirst, jsTruthy]
      · intro _
        simp [processProduct, hp, checksumIfTruthy, hu0, mirrorFindFirst, jsTruthy]

/-- C3, witness: the amended statement at a concrete cache-miss product. -/
theorem claim_c3_witness :
    processProductWithCache prodImg 1 [] =
      (processProduct prodImg 1 [] (fun _ _ => .ok none)).record ∧
    (prodImg.images ≠ [] → (processProduct prodImg 1 [] provBag).providerCalled = true) :=
  claim_c3_cache_miss_no_ai_call prodImg 1 [] provBag (fun _ _ => rfl)

/-- C8, counterexample: the claim says that when product 2's AI call throws,
the chunk output contains records for products 1 and 3 only. In fact the
provider call sits inside `processProduct`'s own try/catch
(embed_products.ts:122-156): the throw is swallowed, and the chunk output
contains all three records (product 2's without a description). -/
theorem claim_c8_counterexample :
    provThrow2 prodU2.images prodU2.name = .error () ∧
    ((processProductsBatchParallel [prodU1, prodU2, prodU3] 1 [] provThrow2).1.map
      fun r => r.product_id) = ["1", "2", "3"] :=
  ⟨rfl, by decide⟩

/-- C8, amended: a throw by the AI provider while enriching one product of a
chunk is caught inside `processProduct` and degrades only that product's
record (absent image description); the product stays in the chunk's output and
neither the chunk nor the job is aborted: for a chunk of 3 products with
truthy (non-empty) image URLs where product 2's AI call throws, the persisted
chunk contains records for all three products, in order, with product 2's
`image_description` absent. (The non-empty hypotheses match the code's
fast/slow split: a falsy first-image URL is routed to the fast path, which
never calls the provider and runs before the slow path.) -/
theorem claim_c8_provider_throw_degrades (q1 q2 q3 : Product) (a : Int)
    (provider : Provider) (u1 u2 u3 : String)
    (h1 : q1.images = [u1]) (h2 : q2.images = [u2]) (h3 : q3.images = [u3])
    (hu1 : u1 ≠ "") (hu2 : u2 ≠ "") (hu3 : u3 ≠ "")
    (hthrow : provider q2.images q2.name = .error ()) :
    ((processProductsBatchParallel [q1, q2, q3] a [] provider).1.map
        fun r => r.product_id) =
      [toString q1.product_id, toString q2.product_id, toString q3.product_id] ∧
    ((processProductsBatchParallel [q1, q2, q3] a [] provider).1.map
        fun r => r.image_description)[1]? = some none := by
  rw [h2] at hthrow
  constructor
  · simp [processProductsBatchParallel, isCachedHit, buildPrefetch, processProduct,
      mirrorFindFirst, jsTruthy, checksumIfTruthy, h1, h2, h3, hu1, hu2, hu3]
  · simp [processProductsBatchParallel, isCachedHit, buildPrefetch, processProduct,
      mirrorFindFirst, jsTruthy, checksumIfTruthy, h1, h2, h3, hu1, hu2, hu3, hthrow]

/-- C8, witness: the amended statement at a concrete chunk of three products
whose middle product's provider call throws. -/
theorem claim_c8_witness :
    ((processProductsBatchParallel [prodU1, prodU2, prodU3] 1 [] provThrow2).1.map
        fun r => r.product_id) =
      [toString prodU1.product_id, toString prodU2.product_id,
        toString prodU3.product_id] ∧
    ((processProductsBatchParallel [prodU1, prodU2, prodU3] 1 [] provThrow2).1.map
        fun r => r.image_description)[1]? = some none :=
  claim_c8_provider_throw_degrades prodU1 prodU2 prodU3 1 provThrow2 "u1" "u2" "u3"
    rfl rfl rfl (by decide) (by decide) (by decide) rfl

lemma upsertBatchesLoop_ok_all (pf : Nat → Bool) :
    ∀ (bs : List (List PineRecord)) (i : Nat),
      (upsertBatchesLoop pf i bs).2 = true → (upsertBatchesLoop pf i bs).1 = bs := by
  intro bs
  induction bs with
  | nil => intro i _; rfl
  | cons b rest ih =>
    intro i h
    by_cases hf : pf i
    · simp [upsertBatchesLoop, hf] at h
    · simp only [upsertBatchesLoop, hf, Bool.false_eq_true, if_false] at h ⊢
      rw [ih (i + 1) h]

/-- Example records used to witness persistence claims. -/
def recA : StoreInfo :=
  { product_id := "1", product_name := "a", product_description := "",
    text := "a ", text_checksum := generateChecksum "a ", image_description := none,
    first_image_url := none, image_url_checksum := none, isPublished := true }

def recB : StoreInfo :=
  { product_id := "2", product_name := "b", product_description := "",
    text := "b ", text_checksum := generateChecksum "b ", image_description := none,
    first_image_url := none, image_url_checksum := none, isPublished := false }

/-- C9: `batchInsertProducts` upserts the chunk to the vector index in
sequential sub-batches of at most 50 records; when some sub-batch fails the
error propagates (`ok = false` exactly when a failing sub-batch index exists)
and zero mirror upserts are performed; otherwise the sub-batches are precisely
the 50-sized slicing of the chunk and every record yields one mirror upsert
keyed by the tenant id and its own product id. -/
theorem claim_c9_write_chunk (products : List StoreInfo) (a : Int)
    (pf : Nat → Bool) :
    (∀ b ∈ (batchInsertProducts products a pf).pineBatches, b.length ≤ 50) ∧
    ((batchInsertProducts products a pf).ok = false →
      (batchInsertProducts products a pf).mirrorUpserts = []) ∧
    ((batchInsertProducts products a pf).ok = true →
      (batchInsertProducts products a pf).pineBatches =
          chunksOf 50 (products.map toPineRecord) ∧
        (batchInsertProducts products a pf).mirrorUpserts =
          products.map (toMirrorRow a)) ∧
    ((batchInsertProducts products a pf).ok = false ↔
      ∃ i < (chunksOf 50 (products.map toPineRecord)).length, pf i = true) ∧
    (∀ u ∈ (batchInsertProducts products a pf).mirrorUpserts,
      u.appId = a ∧ ∃ s ∈ products, u.productId = s.product_id) := by
  refine ⟨?_, ?_, ?_, ?_, ?_⟩
  · intro b hb
    exact chunksOf_length_le 50 (by omega) _ b
      (upsertBatchesLoop_mem pf _ 0 b hb)
  · intro h
    simp only [batchInsertProducts] at h ⊢
    simp [h]
  · intro h
    simp only [batchInsertProducts] at h ⊢
    exact ⟨upsertBatchesLoop_ok_all pf _ 0 h, by simp [h]⟩
  · simp only [batchInsertProducts]
    rw [upsertBatchesLoop_ok_iff pf _ 0]
    simp
  · intro u hu
    simp only [batchInsertProducts] at hu
    by_cases h : (upsertBatchesLoop pf 0 (chunksOf 50 (products.map toPineRecord))).2
    · simp only [h, if_true] at hu
      obtain ⟨s, hs, rfl⟩ := List.mem_map.mp hu
      exact ⟨rfl, s, hs, rfl⟩
    · simp [h] at hu

/-- C9, witness: a successful chunk write mirrors every record, and a write
whose first sub-batch fails mirrors nothing. -/
theorem claim_c9_witness :
    (batchInsertProducts [recA, recB] 1 (fun _ => false)).mirrorUpserts =
      [toMirrorRow 1 recA, toMirrorRow 1 recB] ∧
    (batchInsertProducts [recA, recB] 1 (fun _ => true)).mirrorUpserts = [] :=
  ⟨((claim_c9_write_chunk [recA, recB] 1 (fun _ => false)).2.2.1 (by decide)).2,
   (claim_c9_write_chunk [recA, recB] 1 (fun _ => true)).2.1 (by decide)⟩

lemma chunksOf_eq_of_ne_nil {α : Type} (n : Nat) (hn : 0 < n) (l : List α)
    (h : l ≠ []) : chunksOf n l = l.take n :: chunksOf n (l.drop n) := by
  obtain ⟨x, xs, rfl⟩ := List.exists_cons_of_ne_nil h
  exact chunksOf_eq_cons n hn x xs

lemma chunksOf_of_short {α : Type} (n : Nat) (hn : 0 < n) (l : List α)
    (h : l ≠ []) (hle : l.length ≤ n) : chunksOf n l = [l] := by
  rw [chunksOf_eq_of_ne_nil n hn l h, List.take_of_length_le hle,
    List.drop_eq_nil_of_le hle]
  rfl

lemma batch_ne_nil (chunk : List Product) (a : Int) (m : List MirrorRow)
    (pr : Provider) (h : chunk ≠ []) :
    (processProductsBatchParallel chunk a m pr).1 ≠ [] := by
  intro hx
  have hl := batch_length chunk a m pr
  rw [hx] at hl
  exact h (List.length_eq_zero.mp hl.symm)

lemma batch_isEmpty_false (chunk : List Product) (a : Int) (m : List MirrorRow)
    (pr : Provider) (h : chunk ≠ []) :
    (processProductsBatchParallel chunk a m pr).1.isEmpty = false := by
  cases hx : (processProductsBatchParallel chunk a m pr).1 with
  | nil => exact absurd hx (batch_ne_nil chunk a m pr h)
  | cons y ys => rfl

/-- Unfolding of one chunk-loop step whose chunk is nonempty (so a persistence
call happens for it, successful or not). -/
lemma runChunks_cons_eval (a : Int) (pr : Provider) (pf : Nat → Nat → Bool)
    (k : Nat) (m : List MirrorRow) (chunk : List Product)
    (rest : List (List Product)) (h : chunk ≠ []) :
    runChunks a pr pf k m (chunk :: rest) =
      ⟨(if (batchInsertProducts (processProductsBatchParallel chunk a m pr).1 a
            (pf k)).ok
          then (processProductsBatchParallel chunk a m pr).1.length else 0) +
          (runChunks a pr pf (k + 1)
            ((batchInsertProducts (processProductsBatchParallel chunk a m pr).1 a
              (pf k)).mirrorUpserts.foldl applyUpsert m) rest).imported,
        batchInsertProducts (processProductsBatchParallel chunk a m pr).1 a (pf k) ::
          (runChunks a pr pf (k + 1)
            ((batchInsertProducts (processProductsBatchParallel chunk a m pr).1 a
              (pf k)).mirrorUpserts.foldl applyUpsert m) rest).writes,
        (runChunks a pr pf (k + 1)
          ((batchInsertProducts (processProductsBatchParallel chunk a m pr).1 a
            (pf k)).mirrorUpserts.foldl applyUpsert m) rest).mirror,
        (processProductsBatchParallel chunk a m pr).2 +
          (runChunks a pr pf (k + 1)
            ((batchInsertProducts (processProductsBatchParallel chunk a m pr).1 a
              (pf k)).mirrorUpserts.foldl applyUpsert m) rest).providerCalls⟩ := by
  rw [runChunks]
  simp [batch_isEmpty_false chunk a m pr h]

/-- C5: for a 101-product catalog, `processAndStoreProducts` cuts the catalog
into the two consecutive chunks `take 100` and `drop 100` (sizes 100 and 1),
performs exactly two persistence calls, in catalog order, and — when every
sub-batch upsert succeeds — reports `imported_count = 101` with status 200. -/
theorem claim_c5_chunking (products : List Product) (a : Int) (m : List MirrorRow)
    (pr : Provider) (pf : Nat → Nat → Bool)
    (hlen : products.length = 101) (hok : ∀ k i, pf k i = false) :
    ∃ out, processAndStoreProducts (.ok products) a m pr pf = .ok out ∧
      chunksOf 100 products = [products.take 100, products.drop 100] ∧
      (products.take 100).length = 100 ∧ (products.drop 100).length = 1 ∧
      out.writes.map (fun w => w.records.length) = [100, 1] ∧
      out.writes.map (fun w => w.ok) = [true, true] ∧
      out.result.imported_count = 101 ∧ out.result.status = 200 := by
  have h0 : products ≠ [] := by
    intro h
    rw [h] at hlen
    simp at hlen
  have hBne : products.drop 100 ≠ [] := by
    apply List.length_pos.mp
    rw [List.length_drop, hlen]
    omega
  have hAne : products.take 100 ≠ [] := by
    apply List.length_pos.mp
    rw [List.length_take, hlen]
    omega
  have hch : chunksOf 100 products = [products.take 100, products.drop 100] := by
    rw [chunksOf_eq_of_ne_nil 100 (by omega) products h0,
      chunksOf_of_short 100 (by omega) _ hBne (by rw [List.length_drop, hlen]; omega)]
  have key :
      (runChunks a pr pf 0 m (chunksOf 100 products)).writes.map
          (fun w => w.records.length) = [100, 1] ∧
      (runChunks a pr pf 0 m (chunksOf 100 products)).writes.map
          (fun w => w.ok) = [true, true] ∧
      (runChunks a pr pf 0 m (chunksOf 100 products)).imported = 101 := by
    rw [hch, runChunks_cons_eval a pr pf 0 m _ _ hAne,
      batchInsertProducts_noFail _ a _ (hok 0),
      runChunks_cons_eval a pr pf 1 _ _ _ hBne,
      batchInsertProducts_noFail _ a _ (hok 1)]
    refine ⟨?_, ?_, ?_⟩ <;>
      simp [runChunks, batch_length, List.length_take, List.length_drop, hlen]
  refine ⟨_, rfl, hch, ?_, ?_, key.1, key.2.1, key.2.2, ?_⟩
  · rw [List.length_take, hlen]
    omega
  · rw [List.length_drop, hlen]
  · show (if (runChunks a pr pf 0 m (chunksOf 100 products)).imported > 0
        then 200 else 500) = 200
    rw [key.2.2]
    norm_num

/-- C5, witness: the scenario on a concrete 101-product catalog with an
always-successful vector index. -/
theorem claim_c5_witness :
    ∃ out, processAndStoreProducts (.ok (plainCatalog 101)) 1 [] provNone
        (fun _ _ => false) = .ok out ∧
      chunksOf 100 (plainCatalog 101) =
        [(plainCatalog 101).take 100, (plainCatalog 101).drop 100] ∧
      ((plainCatalog 101).take 100).length = 100 ∧
      ((plainCatalog 101).drop 100).length = 1 ∧
      out.writes.map (fun w => w.records.length) = [100, 1] ∧
      out.writes.map (fun w => w.ok) = [true, true] ∧
      out.result.imported_count = 101 ∧ out.result.status = 200 :=
  claim_c5_chunking (plainCatalog 101) 1 [] provNone (fun _ _ => false)
    (by decide) (fun _ _ => rfl)

/-- C6, counterexample: the claim says that after a persistence failure on
chunk k the returned `importedCount` equals the sum of the sizes of the
successful chunks strictly prior to k. On a 101-product catalog whose FIRST
chunk's persistence fails (k = 1 in the claim's 1-based counting, with a
second chunk following), the prior-successful-chunk sum is 0, yet the job
continues, persists the second chunk, and returns `imported_count = 1`. -/
theorem claim_c6_counterexample :
    (processAndStoreProducts (.ok (plainCatalog 101)) 1 [] provNone
        (fun k _ => k == 0)).toOption.map
      (fun o => (o.result.imported_count, o.writes.map fun w => w.ok)) =
      some (1, [false, true]) := by
  set_option maxRecDepth 100000 in decide

/-- C6, amended: when persistence fails on chunk k, the earlier chunks' writes
remain durably applied (their mirror upserts happened), the failed chunk wrote
nothing to the mirror, the job continues past k, and the returned
`importedCount` equals the sum of the sizes of ALL successfully persisted
chunks — later ones included — not just those strictly prior to k. Shown for a
201-product catalog (chunks 100/100/1) whose middle chunk's persistence fails,
together with the general count-equals-successful-chunk-sum law. -/
theorem claim_c6_chunk_durability (products : List Product) (a : Int)
    (m : List MirrorRow) (pr : Provider) (pf : Nat → Nat → Bool)
    (hlen : products.length = 201)
    (hf0 : ∀ i, pf 0 i = false) (hf1 : pf 1 0 = true) (hf2 : ∀ i, pf 2 i = false) :
    ∃ out, processAndStoreProducts (.ok products) a m pr pf = .ok out ∧
      out.writes.map (fun w => w.ok) = [true, false, true] ∧
      out.writes.map (fun w => w.records.length) = [100, 100, 1] ∧
      out.writes.map (fun w => w.mirrorUpserts.length) = [100, 0, 1] ∧
      out.result.imported_count = 101 ∧
      out.result.imported_count =
        (out.writes.map fun w => if w.ok then w.records.length else 0).sum := by
  have h0 : products ≠ [] := by
    intro h
    rw [h] at hlen
    simp at hlen
  have hd1ne : products.drop 100 ≠ [] := by
    apply List.length_pos.mp
    rw [List.length_drop, hlen]
    omega
  have hd2ne : (products.drop 100).drop 100 ≠ [] := by
    apply List.length_pos.mp
    rw [List.length_drop, List.length_drop, hlen]
    omega
  have hAne : products.take 100 ≠ [] := by
    apply List.length_pos.mp
    rw [List.length_take, hlen]
    omega
  have hBne : (products.drop 100).take 100 ≠ [] := by
    apply List.length_pos.mp
    rw [List.length_take, List.length_drop, hlen]
    omega
  have hch : chunksOf 100 products =
      [products.take 100, (products.drop 100).take 100,
        (products.drop 100).drop 100] := by
    rw [chunksOf_eq_of_ne_nil 100 (by omega) products h0,
      chunksOf_eq_of_ne_nil 100 (by omega) _ hd1ne,
      chunksOf_of_short 100 (by omega) _ hd2ne
        (by rw [List.length_drop, List.length_drop, hlen]; omega)]
  have key :
      (runChunks a pr pf 0 m (chunksOf 100 products)).writes.map
          (fun w => w.ok) = [true, false, true] ∧
      (runChunks a pr pf 0 m (chunksOf 100 products)).writes.map
          (fun w => w.records.length) = [100, 100, 1] ∧
      (runChunks a pr pf 0 m (chunksOf 100 products)).writes.map
          (fun w => w.mirrorUpserts.length) = [100, 0, 1] ∧
      (runChunks a pr pf 0 m (chunksOf 100 products)).imported = 101 := by
    rw [hch, runChunks_cons_eval a pr pf 0 m _ _ hAne,
      batchInsertProducts_noFail _ a _ hf0,
      runChunks_cons_eval a pr pf 1 _ _ _ hBne,
      batchInsertProducts_failFirst _ a _ hf1
        (batch_ne_nil _ a _ pr hBne),
      runChunks_cons_eval a pr pf 2 _ _ _ hd2ne,
      batchInsertProducts_noFail _ a _ hf2]
    refine ⟨?_, ?_, ?_, ?_⟩ <;>
      simp [runChunks, batch_length, List.length_take, List.length_drop, hlen]
  refine ⟨_, rfl, key.1, key.2.1, key.2.2.1, key.2.2.2, ?_⟩
  show (runChunks a pr pf 0 m (chunksOf 100 products)).imported = _
  exact runChunks_imported_eq_sum a pr pf (chunksOf 100 products) 0 m

/-- C6, witness: the amended statement on a concrete 201-product catalog with
the middle chunk's persistence failing. -/
theorem claim_c6_witness :
    ∃ out, processAndStoreProducts (.ok (plainCatalog 201)) 1 [] provNone
        (fun k _ => k == 1) = .ok out ∧
      out.writes.map (fun w => w.ok) = [true, false, true] ∧
      out.writes.map (fun w => w.records.length) = [100, 100, 1] ∧
      out.writes.map (fun w => w.mirrorUpserts.length) = [100, 0, 1] ∧
      out.result.imported_count = 101 ∧
      out.result.imported_count =
        (out.writes.map fun w => if w.ok then w.records.length else 0).sum :=
  have hlen : (plainCatalog 201).length = 201 := by
    set_option maxRecDepth 100000 in decide
  claim_c6_chunk_durability (plainCatalog 201) 1 [] provNone (fun k _ => k == 1)
    hlen (fun _ => rfl) rfl (fun _ => rfl)

end StyleSeeker
